import Mathlib

/-!
Verification development for the invoice-qc-service repository.

The Python source (src/invoice_qc/extractor.py, src/invoice_qc/validator.py,
src/invoice_qc/schema.py, src/api.py) is shallowly embedded below:

* strings are `String` / `List Char` (the code only manipulates the ASCII
  fragment relevant here; `str.strip` is modelled on the common ASCII
  whitespace characters);
* Python floats are modelled by exact rationals `ℚ`: `float(s)` of a decimal
  literal is represented by the exact decimal value.  A separate exact model
  of IEEE binary64 rounding (`fl64`) is provided to settle the one claim
  whose truth depends on binary64 arithmetic;
* `None` is `Option.none`; a raised exception is `Option.none` or
  `Except.error`.

Because the library rational operations `Rat.add`/`Rat.mul`/... are marked
irreducible (so kernel evaluation of `decide` cannot use them), exact
rational arithmetic is implemented through `mkRat` on numerators and
denominators (`qadd`, `qsub`, `qmul`, `qabs`); the bridge lemmas
`qadd_eq`, `qsub_eq`, `qmul_eq`, `qabs_eq` prove that these are exactly the
ordinary field operations of `ℚ`.
-/

namespace InvoiceQC

/-! ### Exact rational arithmetic helpers (kernel-computable) -/

def qadd (a b : ℚ) : ℚ := mkRat (a.num * b.den + b.num * a.den) (a.den * b.den)

def qsub (a b : ℚ) : ℚ := mkRat (a.num * b.den - b.num * a.den) (a.den * b.den)

def qmul (a b : ℚ) : ℚ := mkRat (a.num * b.num) (a.den * b.den)

def qabs (a : ℚ) : ℚ := mkRat (a.num.natAbs : ℤ) a.den

/-! ### Generic string helpers (models of Python string methods) -/

/-- The whitespace characters stripped by Python `str.strip()` (ASCII subset;
the full Python set also contains rarer Unicode spaces, which never occur in
the strings these claims are about). -/
def isPyWs (c : Char) : Bool :=
  c == ' ' || c == '\t' || c == '\n' || c == '\r' || c == '\x0b' || c == '\x0c'

/-- Model of Python `str.strip()`: drop whitespace from both ends. -/
def pyStripChars (l : List Char) : List Char :=
  ((l.dropWhile isPyWs).reverse.dropWhile isPyWs).reverse

/-- Model of Python `str.strip()` on `String`. -/
def pyStrip (s : String) : String := ⟨pyStripChars s.data⟩

/-- Model of Python `str.rfind(c)`: index of the last occurrence of the
character, `-1` if absent. -/
def pyRfind (c : Char) (l : List Char) : ℤ :=
  match l.reverse.findIdx? (fun x => x == c) with
  | some i => (l.length : ℤ) - 1 - i
  | none => -1

/-- ASCII lower-casing of one character, as Python `str.lower()` does on the
ASCII range. -/
def pyLowerChar (c : Char) : Char :=
  if 65 ≤ c.toNat ∧ c.toNat ≤ 90 then Char.ofNat (c.toNat + 32) else c

/-- ASCII upper-casing of one character, as Python `str.upper()` does on the
ASCII range. -/
def pyUpperChar (c : Char) : Char :=
  if 97 ≤ c.toNat ∧ c.toNat ≤ 122 then Char.ofNat (c.toNat - 32) else c

def pyLower (s : String) : String := ⟨s.data.map pyLowerChar⟩

def pyUpper (s : String) : String := ⟨s.data.map pyUpperChar⟩

def isDigitCh (c : Char) : Bool := 48 ≤ c.toNat && c.toNat ≤ 57

/-- Numeric value of a digit string (most significant digit first). -/
def digitsToNat (l : List Char) : ℕ :=
  l.foldl (fun a c => a * 10 + (c.toNat - 48)) 0

/-- Power of ten with an integer exponent, as a rational. -/
def pow10 (e : ℤ) : ℚ :=
  if 0 ≤ e then ((10 ^ e.toNat : ℕ) : ℚ) else mkRat 1 (10 ^ (-e).toNat)

/-! ### Model of Python `float(s)`

`float` accepts an optional sign, digits with an optional single dot, and an
optional integer exponent, with PEP-515 underscores allowed strictly between
digits; surrounding whitespace is stripped.  (The `inf`/`nan` spellings are
not modelled; no input reachable in this code can produce them.)  Parsing is
split into a "raw" phase that returns the sign, integer part, fractional
part, fractional length and exponent as integers - so that concrete runs are
kernel-computable - and a valuation `PyDec.val` producing the exact decimal
value as a rational. -/

structure PyDec where
  sgn : ℤ
  ip : ℕ
  fp : ℕ
  fpLen : ℕ
  ex : ℤ
deriving DecidableEq

/-- The exact rational value of a parsed decimal literal. -/
def PyDec.val (d : PyDec) : ℚ :=
  d.sgn * ((d.ip : ℚ) + (d.fp : ℚ) / ((10 ^ d.fpLen : ℕ) : ℚ)) * pow10 d.ex

/-- Validate and remove PEP-515 underscores as Python `float()` does: an
underscore is legal only when directly surrounded by digits; otherwise the
conversion raises `ValueError` (here: `none`). -/
def stripUnderscores : Option Char → List Char → Option (List Char)
  | _, [] => some []
  | prev, c :: rest =>
    if c == '_' then
      match prev, rest with
      | some p, n :: _ =>
        if isDigitCh p && isDigitCh n then stripUnderscores (some c) rest else none
      | _, _ => none
    else
      match stripUnderscores (some c) rest with
      | some r => some (c :: r)
      | none => none

/-- Exponent digits after `e`/`E` (optional sign, at least one digit, nothing
after). -/
def parseExpDigits (r : List Char) : Option ℤ :=
  let (es, r2) : ℤ × List Char :=
    match r with
    | '+' :: rr => (1, rr)
    | '-' :: rr => (-1, rr)
    | rr => (1, rr)
  let ed := r2.takeWhile isDigitCh
  let r3 := r2.dropWhile isDigitCh
  if ed = [] ∨ r3 ≠ [] then none else some (es * (digitsToNat ed : ℤ))

/-- The optional exponent part of a float literal; `some 0` on empty input,
`none` when trailing garbage remains. -/
def parseExpRaw : List Char → Option ℤ
  | [] => some 0
  | 'e' :: r => parseExpDigits r
  | 'E' :: r => parseExpDigits r
  | _ => none

/-- Sign and mantissa of a float literal (underscores already removed). -/
def pyFloatRawCore (l : List Char) : Option PyDec :=
  let (sgn, l2) : ℤ × List Char :=
    match l with
    | '+' :: r => (1, r)
    | '-' :: r => (-1, r)
    | r => (1, r)
  let ip := l2.takeWhile isDigitCh
  let r3 := l2.dropWhile isDigitCh
  match r3 with
  | '.' :: r4 =>
    let fp := r4.takeWhile isDigitCh
    let r5 := r4.dropWhile isDigitCh
    if ip = [] ∧ fp = [] then none
    else (parseExpRaw r5).map (fun ex => ⟨sgn, digitsToNat ip, digitsToNat fp, fp.length, ex⟩)
  | _ =>
    if ip = [] then none
    else (parseExpRaw r3).map (fun ex => ⟨sgn, digitsToNat ip, 0, 0, ex⟩)

/-- Raw phase of Python `float(s)`: strip, validate underscores, parse. -/
def pyFloatRaw (l : List Char) : Option PyDec :=
  match stripUnderscores none (pyStripChars l) with
  | some l1 => pyFloatRawCore l1
  | none => none

/-- Model of Python `float(s)` on a character list: the exact decimal value,
`none` for `ValueError`. -/
def pyFloatChars (l : List Char) : Option ℚ := (pyFloatRaw l).map PyDec.val

/-- Model of Python `float(s)` on `String`. -/
def pyFloat (s : String) : Option ℚ := pyFloatChars s.data

/-! ### `InvoiceExtractor._parse_amount` (extractor.py lines 250-271) -/

def commaToDot (c : Char) : Char := if c == ',' then '.' else c

/-- The separator-normalisation step of `_parse_amount`: strip surrounding
whitespace, then disambiguate comma/dot exactly as the code does. -/
def amountTransform (s : String) : List Char :=
  let t := pyStripChars s.data
  if ',' ∈ t ∧ '.' ∈ t then
    -- both separators: whichever occurs last is the decimal separator
    if pyRfind ',' t > pyRfind '.' t then
      (t.filter (fun c => c != '.')).map commaToDot
    else
      t.filter (fun c => c != ',')
  else if ',' ∈ t then
    -- only commas: decimal separator iff the last comma has index > 0 and
    -- sits exactly 3 positions before the end (len - pos == 3)
    if pyRfind ',' t > 0 ∧ (t.length : ℤ) - pyRfind ',' t = 3 then
      t.map commaToDot
    else
      t.filter (fun c => c != ',')
  else t

/-- Raw result of `_parse_amount` (before taking the decimal value). -/
def parseAmountRaw (s : String) : Option PyDec := pyFloatRaw (amountTransform s)

/-- Shallow embedding of `InvoiceExtractor._parse_amount`: the separator
normalisation followed by `float()`; `none` models the raised `ValueError`. -/
def parseAmount (s : String) : Option ℚ := (parseAmountRaw s).map PyDec.val

/-- Modelled from the spec, section 4.1 rules 1-2: strip surrounding
whitespace; when both `,` and `.` occur, the separator whose last occurrence
comes later in the string is the decimal separator; strip all occurrences of
the other separator and replace the decimal separator with `.`.  (Written
from the words of the spec, to be compared with `amountTransform`, which is
translated from the code.) -/
def specNormalizeBoth (s : String) : String :=
  let t := pyStripChars s.data
  ⟨if pyRfind ',' t > pyRfind '.' t then
    (t.filter (fun c => c != '.')).map commaToDot
  else
    t.filter (fun c => c != ',')⟩

/-! ### Exact model of IEEE-754 binary64 (Python float) arithmetic

Python floats are binary64.  A finite binary64 value is an exact rational,
and the arithmetic of the `TotalConsistencyRule` (addition, subtraction,
`round(x, 2)`, comparison with the literal `0.01`) is exactly representable
here: `fl64 q` is the binary64 value nearest to `q` (ties to even),
represented as the exact rational it denotes.  Subnormals and overflow are
outside the modelled exponent range (-60..60); every quantity appearing in
the claims is a normal number well inside it. -/

/-- Round a rational to the nearest integer, ties to even (the rounding used
both by IEEE-754 binary64 and by Python `round`). -/
def rhe (q : ℚ) : ℤ :=
  let fl := Int.fdiv q.num q.den
  let r := Int.fmod q.num q.den
  if 2 * r < (q.den : ℤ) then fl
  else if (q.den : ℤ) < 2 * r then fl + 1
  else if fl % 2 = 0 then fl else fl + 1

/-- Power of two with an integer exponent, as a rational. -/
def pow2 (e : ℤ) : ℚ :=
  if 0 ≤ e then (((2 ^ e.toNat : ℕ) : ℤ) : ℚ) else mkRat 1 (2 ^ (-e).toNat)

/-- The binade exponent of a nonzero rational: the `e` with `2^e ≤ |q| < 2^(e+1)`,
found by bounded search over the exponent range relevant to these claims. -/
def findExp (q : ℚ) : ℤ :=
  match (List.range 121).find?
      (fun i => decide (pow2 ((i : ℤ) - 60) ≤ qabs q) &&
        decide (qabs q < pow2 ((i : ℤ) - 59))) with
  | some i => (i : ℤ) - 60
  | none => 0

/-- The binary64 value nearest to a rational (ties to even), as an exact
rational: round `q / 2^(e-52)` to an integer and scale back, where `e` is the
binade exponent of `q`. -/
def fl64 (q : ℚ) : ℚ :=
  if q = 0 then 0
  else qmul ((rhe (qmul q (pow2 (52 - findExp q))) : ℤ) : ℚ) (pow2 (findExp q - 52))

/-- Python `round(x, 2)` on a binary64 value `x`: the closest multiple of
`1/100` to the exact value of `x` (ties to even), converted back to the
nearest binary64 value. -/
def pyRound2f (x : ℚ) : ℚ := fl64 (mkRat (rhe (qmul x 100)) 100)

/-- `TotalConsistencyRule.validate`'s arithmetic condition under faithful
binary64 semantics: `abs(round(net + tax, 2) - round(gross, 2)) > 0.01`,
where `net`, `tax`, `gross` are binary64 values, `+`/`-` round to binary64,
and `0.01` is the binary64 literal.  `true` means the rule emits the
`totals_mismatch` error. -/
def totalsMismatchFloat (net tax gross : ℚ) : Bool :=
  let expected := pyRound2f (fl64 (qadd net tax))
  let actual := pyRound2f gross
  decide (fl64 (mkRat 1 100) < qabs (fl64 (qsub expected actual)))

/-! ### Model of `datetime.strptime` for the formats used by the code

The code parses dates with `datetime.strptime` for the formats
`%d.%m.%Y`, `%d/%m/%Y`, `%d-%m-%Y`, `%Y-%m-%d`, `%Y/%m/%d` (extractor.py
`_normalize_date`) and `%Y-%m-%d` (validator.py).  CPython compiles these to
the regular expressions `%Y : [0-9]{4}`, `%m : 1[0-2]|0[1-9]|[1-9]`,
`%d : 3[01]|[12][0-9]|0[1-9]|[1-9]` joined by the literal separators,
requires the match to consume the whole string, and then `datetime(y, m, d)`
validates the ranges (`1 <= y <= 9999`, day within the month, leap years).
The committed (non-backtracking) parsers below are equivalent to the regex:
whenever a two-character alternative of `%d`/`%m` matches, the following
character is a digit, so the literal separator needed for the shorter
alternative to succeed can never match there either. -/

/-- Exactly four digit characters (CPython `%Y`). -/
def parse4Y (l : List Char) : Option (ℕ × List Char) :=
  match l with
  | a :: b :: c :: d :: rest =>
    if isDigitCh a && isDigitCh b && isDigitCh c && isDigitCh d then
      some ((((a.toNat - 48) * 10 + (b.toNat - 48)) * 10 + (c.toNat - 48)) * 10
        + (d.toNat - 48), rest)
    else none
  | _ => none

/-- CPython `%m`: alternatives `1[0-2]`, `0[1-9]`, `[1-9]` in order
(character codes: 48 is the digit 0, 57 the digit 9). -/
def parseMonth (l : List Char) : Option (ℕ × List Char) :=
  match l with
  | a :: b :: rest =>
    if a.toNat = 49 ∧ 48 ≤ b.toNat ∧ b.toNat ≤ 50 then some (10 + (b.toNat - 48), rest)
    else if a.toNat = 48 ∧ 49 ≤ b.toNat ∧ b.toNat ≤ 57 then some (b.toNat - 48, rest)
    else if 49 ≤ a.toNat ∧ a.toNat ≤ 57 then some (a.toNat - 48, b :: rest)
    else none
  | [a] => if 49 ≤ a.toNat ∧ a.toNat ≤ 57 then some (a.toNat - 48, []) else none
  | [] => none

/-- CPython `%d`: alternatives `3[01]`, `[12][0-9]`, `0[1-9]`, `[1-9]` in order. -/
def parseDay (l : List Char) : Option (ℕ × List Char) :=
  match l with
  | a :: b :: rest =>
    if a.toNat = 51 ∧ (b.toNat = 48 ∨ b.toNat = 49) then some (30 + (b.toNat - 48), rest)
    else if (a.toNat = 49 ∨ a.toNat = 50) ∧ 48 ≤ b.toNat ∧ b.toNat ≤ 57 then
      some ((a.toNat - 48) * 10 + (b.toNat - 48), rest)
    else if a.toNat = 48 ∧ 49 ≤ b.toNat ∧ b.toNat ≤ 57 then some (b.toNat - 48, rest)
    else if 49 ≤ a.toNat ∧ a.toNat ≤ 57 then some (a.toNat - 48, b :: rest)
    else none
  | [a] => if 49 ≤ a.toNat ∧ a.toNat ≤ 57 then some (a.toNat - 48, []) else none
  | [] => none

/-- A literal separator character. -/
def parseLit (c : Char) : List Char → Option (List Char)
  | x :: rest => if x = c then some rest else none
  | [] => none

def isLeap (y : ℕ) : Bool := decide ((y % 4 = 0 ∧ y % 100 ≠ 0) ∨ y % 400 = 0)

def daysInMonth (y m : ℕ) : ℕ :=
  if m = 2 then (if isLeap y then 29 else 28)
  else if m = 4 ∨ m = 6 ∨ m = 9 ∨ m = 11 then 30 else 31

/-- The validation performed by the `datetime` constructor: year in
`1..9999`, day within the month.  (The month range `1..12` is already
guaranteed by the `%m` pattern.) -/
def mkDate? (y m d : ℕ) : Option (ℕ × ℕ × ℕ) :=
  if 1 ≤ y ∧ y ≤ 9999 ∧ 1 ≤ d ∧ d ≤ daysInMonth y m then some (y, m, d) else none

/-- `datetime.strptime(s, "%Y<sep>%m<sep>%d")`. -/
def strptimeYMD (sep : Char) (s : List Char) : Option (ℕ × ℕ × ℕ) :=
  match parse4Y s with
  | none => none
  | some (y, r1) =>
    match parseLit sep r1 with
    | none => none
    | some r2 =>
      match parseMonth r2 with
      | none => none
      | some (m, r3) =>
        match parseLit sep r3 with
        | none => none
        | some r4 =>
          match parseDay r4 with
          | none => none
          | some (d, r5) => if r5 = [] then mkDate? y m d else none

/-- `datetime.strptime(s, "%d<sep>%m<sep>%Y")`. -/
def strptimeDMY (sep : Char) (s : List Char) : Option (ℕ × ℕ × ℕ) :=
  match parseDay s with
  | none => none
  | some (d, r1) =>
    match parseLit sep r1 with
    | none => none
    | some r2 =>
      match parseMonth r2 with
      | none => none
      | some (m, r3) =>
        match parseLit sep r3 with
        | none => none
        | some r4 =>
          match parse4Y r4 with
          | none => none
          | some (y, r5) => if r5 = [] then mkDate? y m d else none

def digitChar : ℕ → Char
  | 0 => '0'
  | 1 => '1'
  | 2 => '2'
  | 3 => '3'
  | 4 => '4'
  | 5 => '5'
  | 6 => '6'
  | 7 => '7'
  | 8 => '8'
  | _ => '9'

def pad2 (n : ℕ) : List Char := [digitChar (n / 10 % 10), digitChar (n % 10)]

def pad4 (n : ℕ) : List Char :=
  [digitChar (n / 1000 % 10), digitChar (n / 100 % 10), digitChar (n / 10 % 10),
    digitChar (n % 10)]

/-- `dt.strftime("%Y-%m-%d")`, zero-padded.  (CPython delegates `%Y` to the
platform; all platforms agree on the plain four digits for every year
≥ 1000, and the idempotence theorem below is insensitive to the padding of
the exotic years below 1000.) -/
def fmtDate (y m d : ℕ) : List Char := pad4 y ++ '-' :: (pad2 m ++ '-' :: pad2 d)

/-- The ordered format list of `InvoiceExtractor._normalize_date`
(extractor.py lines 106-118): first match wins. -/
def firstParse (s : List Char) : Option (ℕ × ℕ × ℕ) :=
  match strptimeDMY '.' s with
  | some t => some t
  | none =>
    match strptimeDMY '/' s with
    | some t => some t
    | none =>
      match strptimeDMY '-' s with
      | some t => some t
      | none =>
        match strptimeYMD '-' s with
        | some t => some t
        | none => strptimeYMD '/' s

/-- Shallow embedding of `InvoiceExtractor._normalize_date`: reformat the
first successfully parsed format as `YYYY-MM-DD`; return the input unchanged
when no format matches. -/
def normalizeDate (s : String) : String :=
  match firstParse s.data with
  | some (y, m, d) => ⟨fmtDate y m d⟩
  | none => s

/-- Comparison key for parsed dates: with months and days below 100 this
numeric key orders triples exactly like the lexicographic `datetime`
comparison. -/
def dateKey : ℕ × ℕ × ℕ → ℕ
  | (y, m, d) => y * 10000 + m * 100 + d

/-! ### Data model (schema.py) -/

structure LineItem where
  description : Option String := none
  quantity : Option ℚ := none
  unit_price : Option ℚ := none
  line_total : Option ℚ := none
deriving DecidableEq

structure Invoice where
  invoice_number : Option String := none
  external_reference : Option String := none
  invoice_date : Option String := none
  due_date : Option String := none
  seller_name : Option String := none
  seller_address : Option String := none
  seller_tax_id : Option String := none
  buyer_name : Option String := none
  buyer_address : Option String := none
  buyer_tax_id : Option String := none
  currency : Option String := none
  net_total : Option ℚ := none
  tax_amount : Option ℚ := none
  gross_total : Option ℚ := none
  tax_rate : Option ℚ := none
  line_items : List LineItem := []
deriving DecidableEq

/-- Python truthiness of an optional string: `None` and `""` are falsy. -/
def pyTruthyStr : Option String → Bool
  | none => false
  | some s => s ≠ ""

/-! ### Validation rules (validator.py)

The string-valued fields a parameterised rule can be applied to. -/

inductive StrField
  | invoice_number
  | invoice_date
  | due_date
  | seller_name
  | buyer_name
  | seller_tax_id
  | buyer_tax_id
deriving DecidableEq

def StrField.get : StrField → Invoice → Option String
  | .invoice_number, inv => inv.invoice_number
  | .invoice_date, inv => inv.invoice_date
  | .due_date, inv => inv.due_date
  | .seller_name, inv => inv.seller_name
  | .buyer_name, inv => inv.buyer_name
  | .seller_tax_id, inv => inv.seller_tax_id
  | .buyer_tax_id, inv => inv.buyer_tax_id

def StrField.name : StrField → String
  | .invoice_number => "invoice_number"
  | .invoice_date => "invoice_date"
  | .due_date => "due_date"
  | .seller_name => "seller_name"
  | .buyer_name => "buyer_name"
  | .seller_tax_id => "seller_tax_id"
  | .buyer_tax_id => "buyer_tax_id"

/-- The amount fields an `AmountSignRule` can be applied to. -/
inductive AmtField
  | net_total
  | tax_amount
  | gross_total
deriving DecidableEq

def AmtField.get : AmtField → Invoice → Option ℚ
  | .net_total, inv => inv.net_total
  | .tax_amount, inv => inv.tax_amount
  | .gross_total, inv => inv.gross_total

def AmtField.name : AmtField → String
  | .net_total => "net_total"
  | .tax_amount => "tax_amount"
  | .gross_total => "gross_total"

/-- `CompletenessRule.validate`: error when the field is `None`, the empty
string, or whitespace only (`not value or not value.strip()`). -/
def completenessValidate (f : StrField) (inv : Invoice) : Option String :=
  match f.get inv with
  | none => some ("missing_field: " ++ f.name)
  | some s => if pyStrip s = "" then some ("missing_field: " ++ f.name) else none

/-- `DateFormatRule.validate`, parameterised by the current year
(`datetime.now().year`): skip falsy values; `invalid_date_format` when the
value does not `strptime` as `%Y-%m-%d`; `date_out_of_range` when the year
is more than 50 years past or 10 years ahead. -/
def dateFormatValidate (nowYear : ℤ) (f : StrField) (inv : Invoice) : Option String :=
  match f.get inv with
  | none => none
  | some s =>
    if s = "" then none
    else
      match strptimeYMD '-' s.data with
      | none => some ("invalid_date_format: " ++ f.name)
      | some (y, _, _) =>
        if (y : ℤ) < nowYear - 50 ∨ (y : ℤ) > nowYear + 10 then
          some ("date_out_of_range: " ++ f.name)
        else none

def allowedCurrencies : List String := ["EUR", "USD", "GBP", "INR", "CHF", "JPY", "AUD", "CAD"]

/-- `CurrencyRule.validate`: skip falsy values; error when the upper-cased
currency is not in the allowed set. -/
def currencyValidate (inv : Invoice) : Option String :=
  match inv.currency with
  | none => none
  | some c =>
    if c = "" then none
    else if pyUpper c ∈ allowedCurrencies then none
    else some ("invalid_currency: " ++ c)

/-- `AmountSignRule.validate`: error when the field is set and negative. -/
def amountSignValidate (f : AmtField) (inv : Invoice) : Option String :=
  match f.get inv with
  | some v => if v < 0 then some ("negative_amount: " ++ f.name) else none
  | none => none

/-- Stand-in for the Python float-to-string interpolation used in the
dynamic parts of mismatch messages (its exact spelling is irrelevant to
every claim: only the fixed prefixes of the messages are ever compared). -/
def fmtAmt (q : ℚ) : String := toString q.num ++ "/" ++ toString q.den

/-- Python `round(x, 2)` under the exact-rational (real-number) reading of
the rule arithmetic: the nearest multiple of 1/100, ties to even. -/
def round2 (q : ℚ) : ℚ := mkRat (rhe (qmul q 100)) 100

/-- `TotalConsistencyRule.validate` under the exact-rational reading of its
arithmetic (see `totalsMismatchFloat` for the binary64 reading):
when net, tax and gross are all set, error iff
`abs(round(net + tax, 2) - round(gross, 2)) > 0.01`. -/
def totalsValidate (inv : Invoice) : Option String :=
  match inv.net_total, inv.tax_amount, inv.gross_total with
  | some n, some t, some g =>
    let expected := round2 (qadd n t)
    let actual := round2 g
    if mkRat 1 100 < qabs (qsub expected actual) then
      some ("business_rule_failed: totals_mismatch (expected " ++ fmtAmt expected ++
        ", got " ++ fmtAmt actual ++ ")")
    else none
  | _, _, _ => none

/-- `DueDateRule.validate`: when both date strings are truthy and both parse
as `%Y-%m-%d`, error iff due date is strictly before invoice date;
any `ValueError` is swallowed (`none`). -/
def dueDateValidate (inv : Invoice) : Option String :=
  match inv.invoice_date, inv.due_date with
  | some ds, some dds =>
    if ds ≠ "" ∧ dds ≠ "" then
      match strptimeYMD '-' ds.data, strptimeYMD '-' dds.data with
      | some a, some b =>
        if dateKey b < dateKey a then
          some "business_rule_failed: due_date_before_invoice_date"
        else none
      | _, _ => none
    else none
  | _, _ => none

/-- `LineItemsConsistencyRule.validate`: when line items are present and net
is set, sum the present line totals; error iff the sum is positive and
differs from net by more than 0.01. -/
def lineItemsValidate (inv : Invoice) : Option String :=
  match inv.net_total with
  | some n =>
    if inv.line_items ≠ [] then
      let s := (inv.line_items.filterMap (fun it => it.line_total)).sum
      if 0 < s ∧ 1 / 100 < |s - n| then
        some ("business_rule_failed: line_items_sum_mismatch (items sum " ++ fmtAmt s ++
          ", net total " ++ fmtAmt n ++ ")")
      else none
    else none
  | none => none

/-- The regex `^[A-Z]{2}\d{9,12}$` of `TaxIDFormatRule` (`re.match`; the `$`
of Python `re` also matches just before one trailing newline). -/
def vatShape (l : List Char) : Bool :=
  match l with
  | a :: b :: rest =>
    decide (65 ≤ a.toNat ∧ a.toNat ≤ 90) && decide (65 ≤ b.toNat ∧ b.toNat ≤ 90) &&
      rest.all isDigitCh && decide (9 ≤ rest.length ∧ rest.length ≤ 12)
  | _ => false

def matchesVat (s : String) : Bool :=
  vatShape s.data || (s.data.getLast? == some '\n' && vatShape s.data.dropLast)

/-- `TaxIDFormatRule.validate`: skip falsy values; error when the value does
not match the VAT shape. -/
def taxIdValidate (f : StrField) (inv : Invoice) : Option String :=
  match f.get inv with
  | none => none
  | some s =>
    if s = "" then none
    else if matchesVat s then none
    else some ("invalid_tax_id_format: " ++ f.name)

/-- `PartyNamesRule.validate`: error when both names are truthy and equal
after lower-casing and stripping. -/
def partiesValidate (inv : Invoice) : Option String :=
  match inv.seller_name, inv.buyer_name with
  | some a, some b =>
    if a ≠ "" ∧ b ≠ "" ∧ pyStrip (pyLower a) = pyStrip (pyLower b) then
      some "business_rule_failed: seller_and_buyer_same"
    else none
  | _, _ => none

/-- The closed set of rule classes defined in validator.py. -/
inductive Rule
  | completeness (f : StrField)
  | dateFormat (f : StrField)
  | currency
  | amountSign (f : AmtField)
  | totals
  | dueDate
  | lineItems
  | taxIdFormat (f : StrField)
  | parties
deriving DecidableEq

def Rule.run (nowYear : ℤ) (inv : Invoice) : Rule → Option String
  | .completeness f => completenessValidate f inv
  | .dateFormat f => dateFormatValidate nowYear f inv
  | .currency => currencyValidate inv
  | .amountSign f => amountSignValidate f inv
  | .totals => totalsValidate inv
  | .dueDate => dueDateValidate inv
  | .lineItems => lineItemsValidate inv
  | .taxIdFormat f => taxIdValidate f inv
  | .parties => partiesValidate inv

/-- The rule list built by `InvoiceValidator.__init__` (validator.py lines
218-243).  Note: no `taxIdFormat` rule is instantiated. -/
def defaultRules : List Rule :=
  [.completeness .invoice_number, .completeness .invoice_date,
    .completeness .seller_name, .completeness .buyer_name,
    .dateFormat .invoice_date, .dateFormat .due_date,
    .currency,
    .amountSign .net_total, .amountSign .tax_amount, .amountSign .gross_total,
    .totals, .dueDate, .lineItems, .parties]

structure ValidationResult where
  invoice_id : String
  is_valid : Bool
  errors : List String
deriving DecidableEq

/-- `InvoiceValidator.validate_invoice`, parameterised by the current year
used by the date-range check.  `invoice.invoice_number or "UNKNOWN"` follows
Python truthiness: `None` and the empty string both give `"UNKNOWN"`. -/
def validateInvoice (nowYear : ℤ) (inv : Invoice) : ValidationResult :=
  let errors := defaultRules.filterMap (Rule.run nowYear inv)
  { invoice_id :=
      match inv.invoice_number with
      | some s => if s = "" then "UNKNOWN" else s
      | none => "UNKNOWN"
    is_valid := errors.length = 0
    errors := errors }

structure ValidationSummary where
  total_invoices : ℕ
  valid_invoices : ℕ
  invalid_invoices : ℕ
  error_counts : String → ℕ
  results : List ValidationResult

/-- `InvoiceValidator.validate_invoices`.  The `error_counts` defaultdict is
modelled as the function giving each error string its number of occurrences
across the batch (absent keys are 0). -/
def validateInvoices (nowYear : ℤ) (invs : List Invoice) : ValidationSummary :=
  let results := invs.map (validateInvoice nowYear)
  let valid := (results.filter (fun r => r.is_valid)).length
  { total_invoices := invs.length
    valid_invoices := valid
    invalid_invoices := results.length - valid
    error_counts := fun e => ((results.map (fun r => r.errors)).flatten.count e)
    results := results }

/-- The `/validate-json` endpoint (api.py lines 89-137): an empty invoice
list is rejected with HTTP 400 before the validator runs; otherwise the
batch is validated.  `Except.error` carries the status code and detail. -/
def validateJson (nowYear : ℤ) (invs : List Invoice) :
    Except (ℕ × String) ValidationSummary :=
  if invs = [] then .error (400, "Empty invoice list")
  else .ok (validateInvoices nowYear invs)

/-! ### Concrete instances appearing in the claims -/

/-- The invoice of the end-to-end test in the spec, section 8: INV-1 with the
due date five days before the invoice date and identical seller and buyer. -/
def invC4 : Invoice :=
  { invoice_number := some "INV-1", invoice_date := some "2024-01-10",
    due_date := some "2024-01-05", seller_name := some "Acme",
    buyer_name := some "Acme" }

/-- Invoice with net 100.00 and tax 20.00 and the given gross total. -/
def invTotals (g : ℚ) : Invoice :=
  { net_total := some 100, tax_amount := some 20, gross_total := some g }

/-- Invoice whose invoice_number is present but the empty string. -/
def invEmptyNumber : Invoice := { invoice_number := some "" }

/-! ### Supporting lemmas -/

theorem qmul_eq (a b : ℚ) : qmul a b = a * b := by
  conv_rhs => rw [← Rat.num_divInt_den a, ← Rat.num_divInt_den b]
  rw [qmul, Rat.mkRat_eq_divInt, Rat.divInt_mul_divInt', Nat.cast_mul]

theorem qadd_eq (a b : ℚ) : qadd a b = a + b := by
  conv_rhs => rw [← Rat.num_divInt_den a, ← Rat.num_divInt_den b]
  rw [Rat.divInt_add_divInt _ _ (Int.natCast_ne_zero.mpr a.den_nz)
    (Int.natCast_ne_zero.mpr b.den_nz)]
  rw [qadd, Rat.mkRat_eq_divInt, Nat.cast_mul]

theorem qsub_eq (a b : ℚ) : qsub a b = a - b := by
  conv_rhs => rw [← Rat.num_divInt_den a, ← Rat.num_divInt_den b]
  rw [Rat.divInt_sub_divInt _ _ (Int.natCast_ne_zero.mpr a.den_nz)
    (Int.natCast_ne_zero.mpr b.den_nz)]
  rw [qsub, Rat.mkRat_eq_divInt, Nat.cast_mul]

theorem qabs_eq (a : ℚ) : qabs a = |a| := by
  rw [qabs, Rat.mkRat_eq_divInt, Rat.abs_def]

lemma isDigitCh_digitChar {k : ℕ} (h : k ≤ 9) : isDigitCh (digitChar k) = true := by
  interval_cases k <;> rfl

lemma digitChar_toNat {k : ℕ} (h : k ≤ 9) : (digitChar k).toNat = 48 + k := by
  interval_cases k <;> rfl

lemma parse4Y_pad4 (y : ℕ) (hy : y ≤ 9999) (rest : List Char) :
    parse4Y (pad4 y ++ rest) = some (y, rest) := by
  have h1 : y / 1000 % 10 ≤ 9 := by omega
  have h2 : y / 100 % 10 ≤ 9 := by omega
  have h3 : y / 10 % 10 ≤ 9 := by omega
  have h4 : y % 10 ≤ 9 := by omega
  simp only [pad4, List.cons_append, List.nil_append, parse4Y]
  rw [isDigitCh_digitChar h1, isDigitCh_digitChar h2, isDigitCh_digitChar h3,
    isDigitCh_digitChar h4]
  simp only [Bool.and_self, if_true]
  rw [digitChar_toNat h1, digitChar_toNat h2, digitChar_toNat h3, digitChar_toNat h4]
  simp only [Option.some.injEq, Prod.mk.injEq]
  exact ⟨by omega, trivial⟩

lemma parseMonth_pad2 {m : ℕ} (h1 : 1 ≤ m) (h2 : m ≤ 12) (rest : List Char) :
    parseMonth (pad2 m ++ rest) = some (m, rest) := by
  interval_cases m <;> rfl

lemma parseDay_pad2 {d : ℕ} (h1 : 1 ≤ d) (h2 : d ≤ 31) (rest : List Char) :
    parseDay (pad2 d ++ rest) = some (d, rest) := by
  interval_cases d <;> rfl

lemma parseDay_shapes (a b : Char) (rest : List Char) :
    parseDay (a :: b :: rest) = none ∨
    (∃ v, parseDay (a :: b :: rest) = some (v, rest)) ∨
    (∃ v, parseDay (a :: b :: rest) = some (v, b :: rest)) := by
  simp only [parseDay]
  split_ifs
  · right; left; exact ⟨_, rfl⟩
  · right; left; exact ⟨_, rfl⟩
  · right; left; exact ⟨_, rfl⟩
  · right; right; exact ⟨_, rfl⟩
  · left; rfl

lemma parseLit_digit_fail {sep x : Char} (hx : isDigitCh x = true)
    (hsep : isDigitCh sep = false) (r : List Char) : parseLit sep (x :: r) = none := by
  have hne : x ≠ sep := by
    intro he
    rw [he, hsep] at hx
    cases hx
  simp [parseLit, hne]

lemma strptimeDMY_fmtDate_none (sep : Char) (hsep : isDigitCh sep = false)
    (y m d : ℕ) : strptimeDMY sep (fmtDate y m d) = none := by
  have hB : isDigitCh (digitChar (y / 100 % 10)) = true := isDigitCh_digitChar (by omega)
  have hC : isDigitCh (digitChar (y / 10 % 10)) = true := isDigitCh_digitChar (by omega)
  show strptimeDMY sep (digitChar (y / 1000 % 10) :: digitChar (y / 100 % 10) ::
    digitChar (y / 10 % 10) :: digitChar (y % 10) :: '-' :: (pad2 m ++ '-' :: pad2 d)) = none
  rcases parseDay_shapes (digitChar (y / 1000 % 10)) (digitChar (y / 100 % 10))
      (digitChar (y / 10 % 10) :: digitChar (y % 10) :: '-' :: (pad2 m ++ '-' :: pad2 d))
    with h | ⟨v, h⟩ | ⟨v, h⟩ <;> simp only [strptimeDMY, h]
  · rw [parseLit_digit_fail hC hsep]
  · rw [parseLit_digit_fail hB hsep]

lemma parseMonth_bounds {l : List Char} {m : ℕ} {r : List Char}
    (h : parseMonth l = some (m, r)) : 1 ≤ m ∧ m ≤ 12 := by
  rcases l with _ | ⟨a, _ | ⟨b, rest⟩⟩ <;> simp only [parseMonth] at h
  · cases h
  · split_ifs at h with h1
    · simp only [Option.some.injEq, Prod.mk.injEq] at h
      obtain ⟨hm, -⟩ := h
      omega
  · split_ifs at h with h1 h2 h3
    · simp only [Option.some.injEq, Prod.mk.injEq] at h
      obtain ⟨hm, -⟩ := h
      omega
    · simp only [Option.some.injEq, Prod.mk.injEq] at h
      obtain ⟨hm, -⟩ := h
      omega
    · simp only [Option.some.injEq, Prod.mk.injEq] at h
      obtain ⟨hm, -⟩ := h
      omega

/-- The bounds guaranteed for a triple accepted by `mkDate?` after a `%m`
month parse (hence by any successful `strptime`). -/
def ValidDate (y m d : ℕ) : Prop :=
  1 ≤ y ∧ y ≤ 9999 ∧ 1 ≤ m ∧ m ≤ 12 ∧ 1 ≤ d ∧ d ≤ daysInMonth y m

lemma mkDate?_valid {y m d : ℕ} {t : ℕ × ℕ × ℕ} (hm : 1 ≤ m ∧ m ≤ 12)
    (h : mkDate? y m d = some t) : ValidDate t.1 t.2.1 t.2.2 := by
  unfold mkDate? at h
  split_ifs at h with hc
  simp only [Option.some.injEq] at h
  subst h
  exact ⟨hc.1, hc.2.1, hm.1, hm.2, hc.2.2.1, hc.2.2.2⟩

lemma strptimeYMD_valid {sep : Char} {s : List Char} {t : ℕ × ℕ × ℕ}
    (h : strptimeYMD sep s = some t) : ValidDate t.1 t.2.1 t.2.2 := by
  unfold strptimeYMD at h
  repeat' split at h
  all_goals first
    | cases h
    | exact mkDate?_valid (parseMonth_bounds (by assumption)) h

lemma strptimeDMY_valid {sep : Char} {s : List Char} {t : ℕ × ℕ × ℕ}
    (h : strptimeDMY sep s = some t) : ValidDate t.1 t.2.1 t.2.2 := by
  unfold strptimeDMY at h
  repeat' split at h
  all_goals first
    | cases h
    | exact mkDate?_valid (parseMonth_bounds (by assumption)) h

lemma parseLit_cons_self (c : Char) (r : List Char) : parseLit c (c :: r) = some r := by
  simp [parseLit]

lemma daysInMonth_le_31 (y m : ℕ) : daysInMonth y m ≤ 31 := by
  unfold daysInMonth
  split_ifs <;> omega

lemma strptimeYMD_fmtDate {y m d : ℕ} (h : ValidDate y m d) :
    strptimeYMD '-' (fmtDate y m d) = some (y, m, d) := by
  obtain ⟨hy1, hy2, hm1, hm2, hd1, hd2⟩ := h
  have hd31 : d ≤ 31 := le_trans hd2 (daysInMonth_le_31 y m)
  have hpd := parseDay_pad2 hd1 hd31 ([] : List Char)
  rw [List.append_nil] at hpd
  show strptimeYMD '-' (pad4 y ++ '-' :: (pad2 m ++ '-' :: pad2 d)) = some (y, m, d)
  unfold strptimeYMD
  simp only [parse4Y_pad4 y hy2, parseLit_cons_self, parseMonth_pad2 hm1 hm2, hpd,
    if_pos]
  unfold mkDate?
  rw [if_pos ⟨hy1, hy2, hd1, hd2⟩]

lemma firstParse_fmtDate {y m d : ℕ} (h : ValidDate y m d) :
    firstParse (fmtDate y m d) = some (y, m, d) := by
  unfold firstParse
  rw [strptimeDMY_fmtDate_none '.' rfl, strptimeDMY_fmtDate_none '/' rfl,
    strptimeDMY_fmtDate_none '-' rfl, strptimeYMD_fmtDate h]

lemma firstParse_valid {s : List Char} {t : ℕ × ℕ × ℕ} (h : firstParse s = some t) :
    ValidDate t.1 t.2.1 t.2.2 := by
  unfold firstParse at h
  repeat' split at h
  all_goals try (injection h with h; subst h)
  all_goals first
    | exact strptimeDMY_valid (by assumption)
    | exact strptimeYMD_valid (by assumption)


lemma mem_dropWhile_of_mem {p : Char → Bool} {c : Char} (hc : p c = false) :
    ∀ {l : List Char}, c ∈ l → c ∈ l.dropWhile p := by
  intro l h
  induction l with
  | nil => cases h
  | cons a t ih =>
    rw [List.dropWhile_cons]
    by_cases ha : p a = true
    · simp only [ha, if_true]
      rcases List.mem_cons.mp h with rfl | ht
      · rw [ha] at hc; cases hc
      · exact ih ht
    · simp only [ha, if_false]
      exact h

lemma mem_pyStripChars {c : Char} (hc : isPyWs c = false) (l : List Char) :
    c ∈ pyStripChars l ↔ c ∈ l := by
  unfold pyStripChars
  constructor
  · intro h
    have h1 := (List.dropWhile_sublist _).subset (List.mem_reverse.mp h)
    have h2 := (List.dropWhile_sublist _).subset (List.mem_reverse.mp h1)
    exact h2
  · intro h
    rw [List.mem_reverse]
    exact mem_dropWhile_of_mem hc (List.mem_reverse.mpr (mem_dropWhile_of_mem hc h))

lemma strData_append (a b : String) : (a ++ b).data = a.data ++ b.data := rfl

lemma take_append_le {n : ℕ} {l₁ l₂ : List Char} (h : n ≤ l₁.length) :
    (l₁ ++ l₂).take n = l₁.take n := by
  rw [List.take_append_eq_append_take, Nat.sub_eq_zero_of_le h, List.take_zero,
    List.append_nil]

/-! ### The claims -/

/-- C1 (counterexample): `_parse_amount("1,234")` does not return 1.234.  The
last comma of `"1,234"` is 4 characters from the end (`len - rfind == 4`), so
the thousands-separator branch strips it and the result is 1234.0. -/
theorem amount_comma3_counterexample :
    parseAmount "1,234" = some 1234 ∧ parseAmount "1,234" ≠ some (1.234 : ℚ) := by
  have h : parseAmountRaw "1,234" = some ⟨1, 1234, 0, 0, 0⟩ := by decide
  constructor
  · rw [parseAmount, h]
    norm_num [PyDec.val, pow10]
  · rw [parseAmount, h]
    intro he
    norm_num [Option.map_some', Option.some.injEq, PyDec.val, pow10] at he

/-- C1 (amended): in a comma-only string the decimal-separator branch of
`_parse_amount` applies when the last comma is exactly 3 characters from the
end, i.e. when exactly two characters follow it: `"1,234"` has three digits
after its comma, so the commas are stripped as thousands separators and the
result is 1234.0, while `"1234,56"` hits the decimal branch and parses as
1234.56. -/
theorem amount_comma3_amended :
    parseAmount "1,234" = some 1234 ∧ parseAmount "1234,56" = some (1234.56 : ℚ) := by
  constructor
  · rw [parseAmount, show parseAmountRaw "1,234" = some ⟨1, 1234, 0, 0, 0⟩ from by decide]
    norm_num [PyDec.val, pow10]
  · rw [parseAmount, show parseAmountRaw "1234,56" = some ⟨1, 1234, 56, 2, 0⟩ from by decide]
    norm_num [PyDec.val, pow10]

/-- C2: for every string containing both `,` and `.`, `_parse_amount` treats
whichever separator occurs last as the decimal separator, strips every
occurrence of the other, and parses the result (`specNormalizeBoth` is that
normalisation written from the words of the spec); in particular
`"1.234,56"` and `"1,234.56"` both parse as 1234.56. -/
theorem parseAmount_both_separators :
    (∀ s : String, ',' ∈ s.data → '.' ∈ s.data →
      parseAmount s = pyFloat (specNormalizeBoth s)) ∧
    parseAmount "1.234,56" = some (1234.56 : ℚ) ∧
    parseAmount "1,234.56" = some (1234.56 : ℚ) := by
  refine ⟨fun s h1 h2 => ?_, ?_, ?_⟩
  · have m1 : ',' ∈ pyStripChars s.data := (mem_pyStripChars (by decide) s.data).mpr h1
    have m2 : '.' ∈ pyStripChars s.data := (mem_pyStripChars (by decide) s.data).mpr h2
    show (pyFloatRaw (amountTransform s)).map PyDec.val = pyFloatChars (specNormalizeBoth s).data
    unfold amountTransform specNormalizeBoth
    rw [if_pos ⟨m1, m2⟩]
    rfl
  · rw [parseAmount, show parseAmountRaw "1.234,56" = some ⟨1, 1234, 56, 2, 0⟩ from by decide]
    norm_num [PyDec.val, pow10]
  · rw [parseAmount, show parseAmountRaw "1,234.56" = some ⟨1, 1234, 56, 2, 0⟩ from by decide]
    norm_num [PyDec.val, pow10]

/-- Witness for C2 at the concrete input `"1.234,56"`. -/
theorem parseAmount_both_separators_witness :
    parseAmount "1.234,56" = pyFloat (specNormalizeBoth "1.234,56") :=
  parseAmount_both_separators.1 "1.234,56" (by decide) (by decide)

/-- C3: at net=100.00, tax=20.00, gross=120.01 - the claimed pass boundary -
the rule as executed by Python (binary64 arithmetic, `totalsMismatchFloat`)
DOES emit the error: `round(120.01, 2) - round(120.00, 2)` is exactly
703687441777/2^46 = 0.010000000000005116..., which is greater than the
binary64 literal 0.01.  Under the exact real-number arithmetic that the rule
documentation and the spec intend (`totalsValidate`), the boundary passes
(no error at 120.01, error at 120.02), as the claim states. -/
theorem totals_boundary_binary64_bug :
    mkRat 12001 100 = (120.01 : ℚ) ∧
    totalsMismatchFloat (fl64 100) (fl64 20) (fl64 (mkRat 12001 100)) = true ∧
    totalsValidate (invTotals (mkRat 12001 100)) = none ∧
    (totalsValidate (invTotals (mkRat 12002 100))).isSome = true ∧
    totalsValidate (invTotals 120) = none :=
  ⟨by norm_num [Rat.mkRat_eq_div], by decide, by decide, by decide, by decide⟩

/-- C4: for every current year, validating the single invoice
`{invoice_number: "INV-1", invoice_date: "2024-01-10", due_date: "2024-01-05",
seller_name: "Acme", buyer_name: "Acme"}` yields `is_valid = false` with both
`business_rule_failed: due_date_before_invoice_date` and
`business_rule_failed: seller_and_buyer_same` among the errors. -/
theorem endToEnd_two_errors (y : ℤ) :
    "business_rule_failed: due_date_before_invoice_date" ∈ (validateInvoice y invC4).errors ∧
    "business_rule_failed: seller_and_buyer_same" ∈ (validateInvoice y invC4).errors ∧
    (validateInvoice y invC4).is_valid = false := by
  have h1 : dateFormatValidate y .invoice_date invC4 =
      (if (2024 : ℤ) < y - 50 ∨ (2024 : ℤ) > y + 10 then
        some "date_out_of_range: invoice_date" else none) := rfl
  have h2 : dateFormatValidate y .due_date invC4 =
      (if (2024 : ℤ) < y - 50 ∨ (2024 : ℤ) > y + 10 then
        some "date_out_of_range: due_date" else none) := rfl
  by_cases hc : (2024 : ℤ) < y - 50 ∨ (2024 : ℤ) > y + 10
  · simp only [validateInvoice, defaultRules, Rule.run, List.filterMap, h1, h2, if_pos hc]
    decide
  · simp only [validateInvoice, defaultRules, Rule.run, List.filterMap, h1, h2, if_neg hc]
    decide

/-- C5 (counterexample): `InvoiceValidator.validate_invoices` applied to the
empty list does not fail - it returns an ordinary summary with zero counts,
an empty results list and an empty error-count table. -/
theorem emptyBatch_counterexample :
    (validateInvoices 2026 []).total_invoices = 0 ∧
    (validateInvoices 2026 []).valid_invoices = 0 ∧
    (validateInvoices 2026 []).invalid_invoices = 0 ∧
    (validateInvoices 2026 []).results = [] ∧
    ∀ e, (validateInvoices 2026 []).error_counts e = 0 :=
  ⟨rfl, rfl, rfl, rfl, fun _ => rfl⟩

/-- C5 (amended): the empty-batch hard failure lives in the HTTP layer, not
in the validator: `validate_json` rejects exactly the empty invoice list with
HTTP 400 "Empty invoice list" before the validator runs, and otherwise
returns the ordinary summary. -/
theorem emptyBatch_amended :
    validateJson 2026 [] = .error (400, "Empty invoice list") ∧
    ∀ (y : ℤ) (invs : List Invoice),
      validateJson y invs = .error (400, "Empty invoice list") ↔ invs = [] := by
  refine ⟨rfl, fun y invs => ?_⟩
  unfold validateJson
  by_cases h : invs = []
  · simp [h]
  · simp [h]

/-- C6 (counterexample): an invoice whose `invoice_number` is present but
equal to the empty string gets invoice_id `"UNKNOWN"`, not `""` - Python
`or` treats the empty string as falsy. -/
theorem invoiceId_empty_counterexample :
    (validateInvoice 2026 invEmptyNumber).invoice_id = "UNKNOWN" ∧
    (validateInvoice 2026 invEmptyNumber).invoice_id ≠ "" :=
  ⟨by decide, by decide⟩

/-- C6 (amended): `validate_invoice` returns invoice_id equal to the
invoice's `invoice_number` whenever that field is present and non-empty, and
the placeholder `"UNKNOWN"` when it is absent or the empty string. -/
theorem invoiceId_amended :
    (∀ (y : ℤ) (inv : Invoice) (s : String), inv.invoice_number = some s → s ≠ "" →
      (validateInvoice y inv).invoice_id = s) ∧
    (∀ (y : ℤ) (inv : Invoice),
      inv.invoice_number = none ∨ inv.invoice_number = some "" →
      (validateInvoice y inv).invoice_id = "UNKNOWN") := by
  constructor
  · intro y inv s hs hne
    simp [validateInvoice, hs, hne]
  · intro y inv h
    rcases h with h | h <;> simp [validateInvoice, h]

/-- Witness for C6 (amended) at concrete invoices. -/
theorem invoiceId_amended_witness :
    (validateInvoice 2026 ({ invoice_number := some "INV-9" } : Invoice)).invoice_id =
      "INV-9" ∧
    (validateInvoice 2026 ({} : Invoice)).invoice_id = "UNKNOWN" :=
  ⟨invoiceId_amended.1 2026 _ "INV-9" rfl (by decide),
   invoiceId_amended.2 2026 {} (Or.inl rfl)⟩

/-- C7: the `TaxIDFormatRule` class exists but is not instantiated in the
default rule list, so no error of the form `invalid_tax_id_format: <field>`
can ever appear in the errors of the default validator. -/
theorem taxIdRule_never_fires :
    (∀ f : StrField, Rule.taxIdFormat f ∉ defaultRules) ∧
    ∀ (y : ℤ) (inv : Invoice) (s : String),
      ("invalid_tax_id_format: " ++ s) ∉ (validateInvoice y inv).errors := by
  constructor
  · intro f
    simp [defaultRules]
  · intro y inv s hmem
    simp only [validateInvoice, List.mem_filterMap] at hmem
    obtain ⟨r, hr, hrun⟩ := hmem
    fin_cases hr <;>
      simp only [Rule.run, completenessValidate, dateFormatValidate, currencyValidate,
        amountSignValidate, totalsValidate, dueDateValidate, lineItemsValidate,
        partiesValidate, StrField.get, StrField.name, AmtField.get, AmtField.name] at hrun <;>
      (repeat' split at hrun) <;>
      first
        | exact Option.noConfusion hrun
        | {have hd := congrArg String.data (Option.some.inj hrun)
           simp only [strData_append, List.append_assoc] at hd
           have h9 := congrArg (List.take 9) hd
           repeat rw [take_append_le (by decide)] at h9
           exact absurd h9 (by decide)}

/-- C8: for every invoice with both date fields set (to truthy strings),
`DueDateRule.validate` emits `business_rule_failed: due_date_before_invoice_date`
iff both strings `strptime` as `%Y-%m-%d` and the due date is strictly before
the invoice date; equal dates give no error and an unparseable (or empty)
date makes the rule silently emit nothing. -/
theorem dueDateRule_spec (inv : Invoice) (d1 d2 : String)
    (h1 : inv.invoice_date = some d1) (h2 : inv.due_date = some d2) :
    (dueDateValidate inv = some "business_rule_failed: due_date_before_invoice_date" ↔
      ∃ a b, strptimeYMD '-' d1.data = some a ∧ strptimeYMD '-' d2.data = some b ∧
        dateKey b < dateKey a) ∧
    (d1 = d2 → dueDateValidate inv = none) ∧
    (strptimeYMD '-' d1.data = none → dueDateValidate inv = none) ∧
    (strptimeYMD '-' d2.data = none → dueDateValidate inv = none) := by
  have hbody : dueDateValidate inv =
      (if d1 ≠ "" ∧ d2 ≠ "" then
        match strptimeYMD '-' d1.data, strptimeYMD '-' d2.data with
        | some a, some b =>
          if dateKey b < dateKey a then
            some "business_rule_failed: due_date_before_invoice_date"
          else none
        | _, _ => none
      else none) := by
    unfold dueDateValidate
    rw [h1, h2]
  by_cases hg : d1 ≠ "" ∧ d2 ≠ ""
  · rw [hbody, if_pos hg]
    rcases hp1 : strptimeYMD '-' d1.data with _ | a <;>
      rcases hp2 : strptimeYMD '-' d2.data with _ | b <;>
      dsimp only
    · exact ⟨⟨fun h => Option.noConfusion h,
        fun ⟨a', b', ha', _, _⟩ => Option.noConfusion ha'⟩,
        fun _ => rfl, fun _ => rfl, fun _ => rfl⟩
    · exact ⟨⟨fun h => Option.noConfusion h,
        fun ⟨a', b', ha', _, _⟩ => Option.noConfusion ha'⟩,
        fun _ => rfl, fun _ => rfl, fun hb => Option.noConfusion hb⟩
    · exact ⟨⟨fun h => Option.noConfusion h,
        fun ⟨a', b', _, hb', _⟩ => Option.noConfusion hb'⟩,
        fun _ => rfl, fun ha => Option.noConfusion ha, fun _ => rfl⟩
    · refine ⟨?_, ?_, fun ha => Option.noConfusion ha, fun hb => Option.noConfusion hb⟩
      · constructor
        · by_cases hk : dateKey b < dateKey a
          · exact fun _ => ⟨a, b, rfl, rfl, hk⟩
          · rw [if_neg hk]
            exact fun h => Option.noConfusion h
        · rintro ⟨a', b', ha', hb', hk⟩
          cases Option.some.inj ha'
          cases Option.some.inj hb'
          rw [if_pos hk]
      · intro he
        rw [← he, hp1] at hp2
        cases Option.some.inj hp2
        exact if_neg (lt_irrefl _)
  · rw [hbody, if_neg hg]
    have hfalse : ¬∃ a b, strptimeYMD '-' d1.data = some a ∧
        strptimeYMD '-' d2.data = some b ∧ dateKey b < dateKey a := by
      rintro ⟨a, b, ha, hb, -⟩
      rcases not_and_or.mp hg with hne | hne <;> push_neg at hne
      · rw [hne] at ha
        exact Option.noConfusion ha
      · rw [hne] at hb
        exact Option.noConfusion hb
    exact ⟨⟨fun h => Option.noConfusion h, fun h => absurd h hfalse⟩,
      fun _ => rfl, fun _ => rfl, fun _ => rfl⟩

/-- Witness for C8: the spec's concrete instance, due date five days before
the invoice date. -/
theorem dueDateRule_spec_witness :
    dueDateValidate { invoice_date := some "2024-01-10", due_date := some "2024-01-05" } =
      some "business_rule_failed: due_date_before_invoice_date" :=
  ((dueDateRule_spec { invoice_date := some "2024-01-10", due_date := some "2024-01-05" }
    "2024-01-10" "2024-01-05" rfl rfl).1).mpr
    ⟨(2024, 1, 10), (2024, 1, 5), by decide, by decide, by decide⟩

/-- C9: `_normalize_date` is idempotent on every string; an already-canonical
date maps to itself and an unparseable string is returned unchanged. -/
theorem normalizeDate_idempotent :
    (∀ s : String, normalizeDate (normalizeDate s) = normalizeDate s) ∧
    normalizeDate "2024-03-05" = "2024-03-05" ∧
    normalizeDate "05.03.2024" = "2024-03-05" ∧
    normalizeDate "March" = "March" := by
  refine ⟨fun s => ?_, by decide, by decide, by decide⟩
  rcases h : firstParse s.data with _ | ⟨y, m, d⟩
  · have hs : normalizeDate s = s := by
      unfold normalizeDate
      rw [h]
    rw [hs]
    exact hs
  · have hv := firstParse_valid h
    have hs : normalizeDate s = ⟨fmtDate y m d⟩ := by
      unfold normalizeDate
      rw [h]
    rw [hs]
    have h2 : firstParse (String.data ⟨fmtDate y m d⟩) = some (y, m, d) :=
      firstParse_fmtDate hv
    unfold normalizeDate
    rw [h2]

/-- C10: `validate_invoices` returns exactly one result per input invoice in
input order (`results = map validate_invoice invoices`), total_invoices is
the input length, and valid + invalid = total. -/
theorem batch_order_and_counts (y : ℤ) (invs : List Invoice) :
    (validateInvoices y invs).results = invs.map (validateInvoice y) ∧
    (validateInvoices y invs).total_invoices = invs.length ∧
    (validateInvoices y invs).valid_invoices + (validateInvoices y invs).invalid_invoices =
      (validateInvoices y invs).total_invoices := by
  refine ⟨rfl, rfl, ?_⟩
  have hle := List.length_filter_le (fun r => r.is_valid) (invs.map (validateInvoice y))
  simp only [validateInvoices, List.length_map] at hle ⊢
  omega

end InvoiceQC

